import Mathlib

/-!
Verification of the cash-flow bookkeeping application (dds_app).

The definitions below are a shallow embedding of `src/dds_app/server.py`,
`src/dds_app/repository.py` and `src/dds_app/db.py`:
  * strings are modelled through their character lists (`String.data`), and the
    Python string operations used by the code (`str.strip`, `str.replace`,
    `int(...)`, `decimal.Decimal(...)`) are reproduced on `List Char`;
  * the SQLite database is a record of five row lists; SQL queries become list
    operations (`find?`, `filter`, `insertionSort`);
  * an operation that may raise an uncaught exception is modelled with an
    explicit outcome (`AmountOut.crash`, or `none` at the validation level).
The modelled string fragment is ASCII input text (the application's forms);
`decimal.Decimal` special values (NaN/Infinity spellings) map to the `crash`
outcome because the uncaught `quantize`/`int()` exception escapes
`parse_amount`.
-/

namespace DDS

/-! ### Python string primitives (on `List Char`) -/

/-- ASCII whitespace stripped by Python `str.strip()` (modelled ASCII fragment). -/
def pyWhitespace (c : Char) : Bool :=
  c == ' ' || c == '\t' || c == '\n' || c == '\r' || c == '\x0b' || c == '\x0c'

def dropLeadingWs : List Char → List Char
  | [] => []
  | c :: cs => if pyWhitespace c then dropLeadingWs cs else c :: cs

/-- Python `str.strip()`: drop leading and trailing whitespace. -/
def pyStripChars (l : List Char) : List Char :=
  ((dropLeadingWs ((dropLeadingWs l).reverse)).reverse)

/-- Python `str.strip()` on `String`. -/
def pyStrip (s : String) : String := String.mk (pyStripChars s.data)

def charDigit (c : Char) : Nat := c.toNat - '0'.toNat

def allDigits (l : List Char) : Bool := l.all Char.isDigit

def digitsToNat : List Char → Nat → Nat
  | [], acc => acc
  | c :: cs, acc => digitsToNat cs (10 * acc + charDigit c)

/-- CPython underscore rule for numeric strings: every `_` must be directly
preceded and followed by a digit.  The first argument is the previous char. -/
def underscoreOkAux : Option Char → List Char → Bool
  | _, [] => true
  | p, c :: cs =>
    if c = '_' then
      (match p with | some d => d.isDigit | none => false)
        && (match cs with | d :: _ => d.isDigit | [] => false)
        && underscoreOkAux (some c) cs
    else underscoreOkAux (some c) cs

def underscoresOk (l : List Char) : Bool := underscoreOkAux none l

def stripUnderscores (l : List Char) : List Char := l.filter (fun c => c != '_')

/-! ### `parse_int` (server.py:147): Python `int(value)` with `None` on failure -/

/-- Python `int(str)` on an ASCII character list: optional surrounding
whitespace, optional sign, then digits with legally-placed underscores. -/
def pyIntOfChars (l : List Char) : Option Int :=
  let t := pyStripChars l
  let sr : Int × List Char :=
    match t with
    | '+' :: cs => (1, cs)
    | '-' :: cs => (-1, cs)
    | cs => (1, cs)
  if sr.2 = [] then none
  else if underscoresOk sr.2 then
    let ds := stripUnderscores sr.2
    if allDigits ds then some (sr.1 * (digitsToNat ds 0 : Int)) else none
  else none

/-- `parse_int` from server.py: `int(value)`, returning `none` on failure. -/
def parse_int (s : String) : Option Int := pyIntOfChars s.data

/-! ### `parse_amount` (server.py:154): strip, drop spaces, comma→dot,
`Decimal`, quantize half-up to 2 places, times 100 -/

/-- Exact finite decimal: the value is `coeff * 10 ^ exp`. -/
structure DecNum where
  coeff : Int
  exp : Int
deriving DecidableEq, Repr

inductive DecParse
  /-- `decimal.InvalidOperation` raised by the constructor (caught: `None`). -/
  | invalid
  /-- NaN / Infinity spellings: constructed fine, but the later `quantize` /
  `int()` raises outside the `try`, so `parse_amount` crashes. -/
  | special
  | fin (d : DecNum)
deriving DecidableEq, Repr

/-- Split the character list at the first `e`/`E` exponent marker. -/
def splitAtExpMarker : List Char → List Char × Option (List Char)
  | [] => ([], none)
  | c :: cs =>
    if c = 'e' ∨ c = 'E' then ([], some cs)
    else
      let r := splitAtExpMarker cs
      (c :: r.1, r.2)

/-- Split at the first `.`; `none` when there is no dot. -/
def splitAtDot : List Char → Option (List Char × List Char)
  | [] => none
  | c :: cs =>
    if c = '.' then some ([], cs)
    else
      match splitAtDot cs with
      | none => none
      | some r => some (c :: r.1, r.2)

def asciiLower (c : Char) : Char :=
  if 'A' ≤ c ∧ c ≤ 'Z' then Char.ofNat (c.toNat + 32) else c

/-- Spellings `Decimal` parses as NaN / sNaN / Infinity (case-insensitive,
with an optional digit diagnostic after `nan`). -/
def isNanOrInf (l : List Char) : Bool :=
  let low := l.map asciiLower
  low == ['i', 'n', 'f'] || low == ['i', 'n', 'f', 'i', 'n', 'i', 't', 'y'] ||
    (match low with
     | 'n' :: 'a' :: 'n' :: rest => allDigits rest
     | 's' :: 'n' :: 'a' :: 'n' :: rest => allDigits rest
     | _ => false)

/-- Parse the numeric part of a decimal literal (sign and underscores already
handled): `digits [. digits]` or `. digits`, with an optional exponent. -/
def parseDecCore (l : List Char) : Option DecNum :=
  let me := splitAtExpMarker l
  let expVal : Option Int :=
    match me.2 with
    | none => some 0
    | some es =>
      let esr : Int × List Char :=
        match es with
        | '+' :: cs => (1, cs)
        | '-' :: cs => (-1, cs)
        | cs => (1, cs)
      if esr.2 ≠ [] ∧ allDigits esr.2 then some (esr.1 * (digitsToNat esr.2 0 : Int))
      else none
  match expVal with
  | none => none
  | some e =>
    match splitAtDot me.1 with
    | none =>
      if me.1 ≠ [] ∧ allDigits me.1 then some ⟨(digitsToNat me.1 0 : Int), e⟩ else none
    | some ipfp =>
      if allDigits ipfp.1 ∧ allDigits ipfp.2 ∧ (ipfp.1 ≠ [] ∨ ipfp.2 ≠ []) then
        some ⟨(digitsToNat (ipfp.1 ++ ipfp.2) 0 : Int), e - ipfp.2.length⟩
      else none

/-- Python `decimal.Decimal(str)` on the modelled ASCII fragment. -/
def pyDecimalOfChars (l : List Char) : DecParse :=
  if l = [] then .invalid
  else if underscoresOk l then
    let l1 := stripUnderscores l
    let sr : Int × List Char :=
      match l1 with
      | '+' :: cs => (1, cs)
      | '-' :: cs => (-1, cs)
      | cs => (1, cs)
    if isNanOrInf sr.2 then .special
    else
      match parseDecCore sr.2 with
      | some d => .fin ⟨sr.1 * d.coeff, d.exp⟩
      | none => .invalid
  else .invalid

/-- Structural decimal-digit count of a natural number (`0` has one digit). -/
def numDigitsAux : Nat → Nat → Nat
  | 0, _ => 0
  | fuel + 1, n => if n < 10 then 1 else numDigitsAux fuel (n / 10) + 1

def numDigits (n : Nat) : Nat := numDigitsAux (n + 1) n

/-- `ROUND_HALF_UP` of `d` to two decimal places, times 100 — computed with
exact integer arithmetic (the coefficient of the quantized decimal). -/
def centsOfDec (d : DecNum) : Int :=
  if 0 ≤ d.exp + 2 then d.coeff * (10 : Int) ^ (d.exp + 2).toNat
  else
    let k := (-(d.exp + 2)).toNat
    let dv := 10 ^ k
    let n := d.coeff.natAbs
    if d.coeff < 0 then -(((n + dv / 2) / dv : Nat) : Int)
    else (((n + dv / 2) / dv : Nat) : Int)

inductive AmountOut
  /-- `parse_amount` returned `None`. -/
  | invalid
  /-- an exception escapes `parse_amount` (NaN/Infinity input, or the
  quantized coefficient exceeds the default 28-digit context precision). -/
  | crash
  | ok (cents : Int)
deriving DecidableEq, Repr

/-- The string munging done by `parse_amount` before `Decimal`:
`value.strip()`, `.replace(" ", "")`, `.replace(",", ".")`. -/
def amountNormalize (l : List Char) : List Char :=
  ((pyStripChars l).filter (fun c => c != ' ')).map (fun c => if c = ',' then '.' else c)

def parse_amount_chars (l : List Char) : AmountOut :=
  let v1 := (pyStripChars l).filter (fun c => c != ' ')
  if v1 = [] then .invalid
  else
    match pyDecimalOfChars (v1.map (fun c => if c = ',' then '.' else c)) with
    | .invalid => .invalid
    | .special => .crash
    | .fin d =>
      let cents := centsOfDec d
      if 28 < numDigits cents.natAbs then .crash
      else .ok cents

/-- `parse_amount` from server.py: decimal string (comma or dot separator,
optional thousands spaces) to integer minor units, `ROUND_HALF_UP`. -/
def parse_amount (s : String) : AmountOut := parse_amount_chars s.data

example : parse_amount "1 234,50" = AmountOut.ok 123450 := by decide
example : parse_amount "1234.50" = AmountOut.ok 123450 := by decide
example : parse_amount "-1" = AmountOut.ok (-100) := by decide
example : parse_amount "0" = AmountOut.ok 0 := by decide
example : parse_amount "" = AmountOut.invalid := by decide
example : parse_amount "1,005" = AmountOut.ok 101 := by decide
example : parse_amount "abc" = AmountOut.invalid := by decide
example : parse_amount "nan" = AmountOut.crash := by decide
example : parse_amount "1.2.3" = AmountOut.invalid := by decide
example : parse_amount "1e2" = AmountOut.ok 10000 := by decide
example : parse_int "12" = some 12 := by decide
example : parse_int " -7 " = some (-7) := by decide
example : parse_int "" = none := by decide
example : parse_int "1.5" = none := by decide
example : parse_int "1_0" = some 10 := by decide
example : parse_int "_1" = none := by decide

/-! ### Data model (db.py schema) -/

structure StatusRow where
  id : Int
  name : String
deriving DecidableEq, Repr

structure TypeRow where
  id : Int
  name : String
deriving DecidableEq, Repr

structure CategoryRow where
  id : Int
  type_id : Int
  name : String
deriving DecidableEq, Repr

structure SubcategoryRow where
  id : Int
  category_id : Int
  name : String
deriving DecidableEq, Repr

structure CashflowRow where
  id : Int
  recorded_on : String
  status_id : Int
  type_id : Int
  category_id : Int
  subcategory_id : Int
  amount_cents : Int
  comment : Option String
deriving DecidableEq, Repr

/-- The five tables of the SQLite database. -/
structure DB where
  statuses : List StatusRow
  types : List TypeRow
  categories : List CategoryRow
  subcategories : List SubcategoryRow
  cashflows : List CashflowRow
deriving DecidableEq, Repr

/-! ### repository.py point lookups -/

def get_status (db : DB) (i : Int) : Option StatusRow :=
  db.statuses.find? (fun r => r.id == i)

def get_type (db : DB) (i : Int) : Option TypeRow :=
  db.types.find? (fun r => r.id == i)

def get_category (db : DB) (i : Int) : Option CategoryRow :=
  db.categories.find? (fun r => r.id == i)

/-- Row shape returned by `get_subcategory`: the subcategory joined with its
owning category (the join contributes `categories.type_id`). -/
structure SubcategoryInfo where
  id : Int
  name : String
  category_id : Int
  type_id : Int
deriving DecidableEq, Repr

/-- `get_subcategory` from repository.py: `JOIN categories ON
subcategories.category_id = categories.id`; `none` when either the
subcategory or its owning category is absent. -/
def get_subcategory (db : DB) (i : Int) : Option SubcategoryInfo :=
  match db.subcategories.find? (fun r => r.id == i) with
  | none => none
  | some sub =>
    match db.categories.find? (fun c => c.id == sub.category_id) with
    | none => none
    | some cat => some ⟨sub.id, sub.name, sub.category_id, cat.type_id⟩

def get_cashflow (db : DB) (i : Int) : Option CashflowRow :=
  db.cashflows.find? (fun r => r.id == i)

/-- The (table, column) pairs `count_dependencies` is called with. -/
inductive DepColumn
  | cashflows_status_id
  | cashflows_type_id
  | cashflows_category_id
  | cashflows_subcategory_id
  | categories_type_id
  | subcategories_category_id
deriving DecidableEq, Repr

/-- `count_dependencies` from repository.py:
`SELECT COUNT(*) FROM {table} WHERE {column} = ?`. -/
def count_dependencies (db : DB) (col : DepColumn) (value : Int) : Nat :=
  match col with
  | .cashflows_status_id => (db.cashflows.filter (fun r => r.status_id == value)).length
  | .cashflows_type_id => (db.cashflows.filter (fun r => r.type_id == value)).length
  | .cashflows_category_id => (db.cashflows.filter (fun r => r.category_id == value)).length
  | .cashflows_subcategory_id => (db.cashflows.filter (fun r => r.subcategory_id == value)).length
  | .categories_type_id => (db.categories.filter (fun r => r.type_id == value)).length
  | .subcategories_category_id => (db.subcategories.filter (fun r => r.category_id == value)).length

/-! ### repository.py deletes.  `ON DELETE CASCADE` (schema in db.py) removes
dependent categories/subcategories; the handlers below only call these when
the relevant dependency counts are zero, so the cascades are vacuous there
(and the `NO ACTION` foreign keys from `cashflows` cannot fire). -/

def delete_status (db : DB) (i : Int) : DB :=
  DB.mk (db.statuses.filter (fun r => r.id != i)) db.types db.categories
    db.subcategories db.cashflows

def delete_type (db : DB) (i : Int) : DB :=
  DB.mk db.statuses (db.types.filter (fun r => r.id != i))
    (db.categories.filter (fun c => c.type_id != i))
    (db.subcategories.filter
      (fun s => !(db.categories.any (fun c => c.id == s.category_id && c.type_id == i))))
    db.cashflows

def delete_category (db : DB) (i : Int) : DB :=
  DB.mk db.statuses db.types (db.categories.filter (fun c => c.id != i))
    (db.subcategories.filter (fun s => s.category_id != i)) db.cashflows

def delete_subcategory (db : DB) (i : Int) : DB :=
  DB.mk db.statuses db.types db.categories
    (db.subcategories.filter (fun s => s.id != i)) db.cashflows

def delete_cashflow (db : DB) (i : Int) : DB :=
  DB.mk db.statuses db.types db.categories db.subcategories
    (db.cashflows.filter (fun r => r.id != i))

/-! ### Entry validation (server.py:423 `validate_entry_form`) -/

def msgDateRequired : String := "Дата операции обязательна"
def msgStatusRequired : String := "Статус обязателен"
def msgStatusMissing : String := "Выбран несуществующий статус"
def msgTypeRequired : String := "Тип обязателен"
def msgTypeMissing : String := "Выбран несуществующий тип"
def msgCategoryRequired : String := "Категория обязательна"
def msgCategoryMissing : String := "Выбрана несуществующая категория"
def msgCategoryChain : String := "Категория не связана с выбранным типом"
def msgSubcategoryRequired : String := "Подкатегория обязательна"
def msgSubcategoryMissing : String := "Выбрана несуществующая подкатегория"
def msgSubcategoryChainCat : String := "Подкатегория не относится к выбранной категории"
def msgSubcategoryChainType : String := "Подкатегория не относится к выбранному типу"
def msgAmountInvalid : String := "Введите корректную сумму"

/-- The raw field map (`form.get(key, "")` — a missing key is `""`). -/
structure EntryForm where
  recorded_on : String
  status_id : String
  type_id : String
  category_id : String
  subcategory_id : String
  amount : String
  comment : String
deriving DecidableEq, Repr

/-- The `data` dict built by `validate_entry_form`: a field is `none` when its
branch did not store it. -/
structure EntryData where
  recorded_on : Option String
  status_id : Option Int
  type_id : Option Int
  category_id : Option Int
  subcategory_id : Option Int
  amount_cents : Option Int
  amount : Option String
  comment : String
deriving DecidableEq, Repr

/-- `recorded_on` block: strip; empty is an error. -/
def checkRecorded (s : String) : Option String × List String :=
  if pyStrip s = "" then (none, [msgDateRequired]) else (some (pyStrip s), [])

/-- Common shape of the four reference-id blocks of `validate_entry_form`:
`parse_int`; `None`/`0` is falsy ("required" error); then the existence
lookup ("missing" error); then the block's extra chain errors. -/
def refCheck {α : Type} (lookup : Int → Option α) (msgReq msgMiss : String)
    (chain : α → List String) (raw : String) : Option Int × List String :=
  match parse_int raw with
  | none => (none, [msgReq])
  | some n =>
    if n = 0 then (none, [msgReq])
    else
      match lookup n with
      | none => (none, [msgMiss])
      | some x => (some n, chain x)

/-- `status_id` block. -/
def checkStatus (db : DB) (raw : String) : Option Int × List String :=
  refCheck (get_status db) msgStatusRequired msgStatusMissing (fun _ => []) raw

/-- `type_id` block. -/
def checkType (db : DB) (raw : String) : Option Int × List String :=
  refCheck (get_type db) msgTypeRequired msgTypeMissing (fun _ => []) raw

/-- `if type_id and category["type_id"] != type_id` (tid is the bare
`parse_int` result, set before the type-existence check). -/
def chainErrCategory (cat : CategoryRow) (tid : Option Int) : List String :=
  match tid with
  | some t => if t ≠ 0 ∧ cat.type_id ≠ t then [msgCategoryChain] else []
  | none => []

/-- `category_id` block. -/
def checkCategory (db : DB) (raw : String) (tid : Option Int) :
    Option Int × List String :=
  refCheck (get_category db) msgCategoryRequired msgCategoryMissing
    (fun cat => chainErrCategory cat tid) raw

/-- The two chain checks of the `subcategory_id` block. -/
def chainErrSubcategory (sub : SubcategoryInfo) (cid tid : Option Int) : List String :=
  (match cid with
   | some c => if c ≠ 0 ∧ sub.category_id ≠ c then [msgSubcategoryChainCat] else []
   | none => []) ++
  (match tid with
   | some t => if t ≠ 0 ∧ sub.type_id ≠ t then [msgSubcategoryChainType] else []
   | none => [])

/-- `subcategory_id` block. -/
def checkSubcategory (db : DB) (raw : String) (cid tid : Option Int) :
    Option Int × List String :=
  refCheck (get_subcategory db) msgSubcategoryRequired msgSubcategoryMissing
    (fun sub => chainErrSubcategory sub cid tid) raw

/-- The error list accumulated by the five non-amount blocks, in the source's
append order (date, status, type, category, subcategory).  The category and
subcategory chain checks read the bare `parse_int` results (the Python locals
`type_id` / `category_id`, set before the existence checks). -/
def baseErrors (db : DB) (form : EntryForm) : List String :=
  (checkRecorded form.recorded_on).2 ++ (checkStatus db form.status_id).2 ++
    (checkType db form.type_id).2 ++
    (checkCategory db form.category_id (parse_int form.type_id)).2 ++
    (checkSubcategory db form.subcategory_id (parse_int form.category_id)
      (parse_int form.type_id)).2

/-- The `data` dict after the five non-amount blocks, with the amount fields
supplied by the caller. -/
def baseData (db : DB) (form : EntryForm) (ac : Option Int) (ar : Option String) :
    EntryData :=
  ⟨(checkRecorded form.recorded_on).1, (checkStatus db form.status_id).1,
    (checkType db form.type_id).1,
    (checkCategory db form.category_id (parse_int form.type_id)).1,
    (checkSubcategory db form.subcategory_id (parse_int form.category_id)
      (parse_int form.type_id)).1,
    ac, ar, pyStrip form.comment⟩

/-- `validate_entry_form` from server.py.  The result is `none` when
`parse_amount` raises an uncaught exception; otherwise `some (data, errors)`.
`cents is None or cents == 0` is the amount guard: a negative parsed amount
takes the `else` branch and is stored. -/
def validate_entry_form (db : DB) (form : EntryForm) :
    Option (EntryData × List String) :=
  match parse_amount form.amount with
  | .crash => none
  | .invalid =>
    some (baseData db form none none, baseErrors db form ++ [msgAmountInvalid])
  | .ok cents =>
    if cents = 0 then
      some (baseData db form none none, baseErrors db form ++ [msgAmountInvalid])
    else
      some (baseData db form (some cents) (some form.amount), baseErrors db form)

/-! ### Ledger listing (repository.py:9 `list_cashflows`) -/

/-- Optional filters; `none` models an absent key or falsy value. -/
structure Filters where
  date_from : Option String
  date_to : Option String
  status_id : Option Int
  type_id : Option Int
  category_id : Option Int
  subcategory_id : Option Int
deriving DecidableEq, Repr

/-- Lexicographic `≤` on character lists: SQLite's text comparison for the
(ASCII) ISO date strings. -/
def lexLe : List Char → List Char → Bool
  | [], _ => true
  | _ :: _, [] => false
  | a :: as, b :: bs => if a < b then true else if b < a then false else lexLe as bs

def strLe (a b : String) : Bool := lexLe a.data b.data

/-- The `WHERE` conjunction built from the supplied filters (both date
bounds are `>=` / `<=`, i.e. inclusive). -/
def matchesFilters (f : Filters) (r : CashflowRow) : Bool :=
  (match f.date_from with | none => true | some d => strLe d r.recorded_on) &&
  (match f.date_to with | none => true | some d => strLe r.recorded_on d) &&
  (match f.status_id with | none => true | some v => r.status_id == v) &&
  (match f.type_id with | none => true | some v => r.type_id == v) &&
  (match f.category_id with | none => true | some v => r.category_id == v) &&
  (match f.subcategory_id with | none => true | some v => r.subcategory_id == v)

/-- The four inner `JOIN`s of the listing query: a ledger row is visible only
when all four referenced rows exist. -/
def joinOk (db : DB) (r : CashflowRow) : Bool :=
  db.statuses.any (fun s => s.id == r.status_id) &&
  db.types.any (fun t => t.id == r.type_id) &&
  db.categories.any (fun c => c.id == r.category_id) &&
  db.subcategories.any (fun s => s.id == r.subcategory_id)

/-- `ORDER BY recorded_on DESC, cashflows.id DESC` as a boolean
"may come first" comparator. -/
def rowLe (a b : CashflowRow) : Bool :=
  if a.recorded_on = b.recorded_on then b.id ≤ a.id
  else strLe b.recorded_on a.recorded_on

/-- `rowLe` as a decidable relation, for `List.insertionSort`. -/
def rowLeP (a b : CashflowRow) : Prop := rowLe a b = true

instance : DecidableRel rowLeP :=
  fun a b => inferInstanceAs (Decidable (rowLe a b = true))

/-- `list_cashflows` from repository.py: join, filter, order by date
descending then id descending (the sort produces the unique `ORDER BY`
permutation; keys are unique because ids are). -/
def list_cashflows (db : DB) (f : Filters) : List CashflowRow :=
  List.insertionSort rowLeP
    (db.cashflows.filter (fun r => joinOk db r && matchesFilters f r))

/-! ### Reference deletion (server.py:846 `handle_reference_delete`) -/

inductive RefEntity
  | status
  | type
  | category
  | subcategory
deriving DecidableEq, Repr

def msgStatusDeleteBlocked : String :=
  "Нельзя удалить статус, пока существуют связанные записи ДДС"
def msgTypeDeleteBlocked : String :=
  "Нельзя удалить тип с существующими категориями или записями ДДС"
def msgCategoryDeleteBlocked : String :=
  "Нельзя удалить категорию, пока существуют связанные подкатегории или записи ДДС"
def msgSubcategoryDeleteBlocked : String :=
  "Нельзя удалить подкатегорию, пока существуют связанные записи ДДС"

/-- Outcome of a reference deletion: the resulting database and the error
message of the rendered page (`none` = the success page). -/
structure DeleteOutcome where
  db : DB
  error : Option String
deriving DecidableEq, Repr

def handle_reference_delete (db : DB) (entity : RefEntity) (eid : Int) :
    DeleteOutcome :=
  match entity with
  | .status =>
    if 0 < count_dependencies db .cashflows_status_id eid then
      ⟨db, some msgStatusDeleteBlocked⟩
    else ⟨delete_status db eid, none⟩
  | .type =>
    if 0 < count_dependencies db .categories_type_id eid ∨
        0 < count_dependencies db .cashflows_type_id eid then
      ⟨db, some msgTypeDeleteBlocked⟩
    else ⟨delete_type db eid, none⟩
  | .category =>
    if 0 < count_dependencies db .subcategories_category_id eid ∨
        0 < count_dependencies db .cashflows_category_id eid then
      ⟨db, some msgCategoryDeleteBlocked⟩
    else ⟨delete_category db eid, none⟩
  | .subcategory =>
    if 0 < count_dependencies db .cashflows_subcategory_id eid then
      ⟨db, some msgSubcategoryDeleteBlocked⟩
    else ⟨delete_subcategory db eid, none⟩

/-! ### Entry create / update / delete views (server.py:502, 543, 563) -/

/-- The typed payload `create_cashflow` / `update_cashflow` read from the
validated `data` dict. -/
structure CashPayload where
  recorded_on : String
  status_id : Int
  type_id : Int
  category_id : Int
  subcategory_id : Int
  amount_cents : Int
deriving DecidableEq, Repr

/-- Pick the keys the repository reads from the payload (`KeyError` — `none`
here — if one is missing; never happens when the error list is empty, see
`entry_validation_complete_or_errors`). -/
def commitPayload (d : EntryData) : Option CashPayload :=
  d.recorded_on.bind fun ro => d.status_id.bind fun si =>
    d.type_id.bind fun ti => d.category_id.bind fun ci =>
      d.subcategory_id.bind fun sci =>
        d.amount_cents.map fun ac => ⟨ro, si, ti, ci, sci, ac⟩

/-- `view_create_entry`: validate, and insert only when there is no error.
The `Bool` reports whether a row was written; `newId` is the fresh rowid. -/
def view_create_entry (db : DB) (form : EntryForm) (newId : Int) : DB × Bool :=
  match validate_entry_form db form with
  | none => (db, false)
  | some de =>
    if de.2 = [] then
      match commitPayload de.1 with
      | some p =>
        (DB.mk db.statuses db.types db.categories db.subcategories
          (db.cashflows ++
            [CashflowRow.mk newId p.recorded_on p.status_id p.type_id
              p.category_id p.subcategory_id p.amount_cents
              (some de.1.comment)]), true)
      | none => (db, false)
    else (db, false)

/-- `view_update_entry`: 404 when the row is absent, else validate and
overwrite in place only when there is no error. -/
def view_update_entry (db : DB) (eid : Int) (form : EntryForm) : DB × Bool :=
  if (get_cashflow db eid).isSome then
    match validate_entry_form db form with
    | none => (db, false)
    | some de =>
      if de.2 = [] then
        match commitPayload de.1 with
        | some p =>
          (DB.mk db.statuses db.types db.categories db.subcategories
            (db.cashflows.map (fun r =>
              if r.id == eid then
                CashflowRow.mk r.id p.recorded_on p.status_id p.type_id
                  p.category_id p.subcategory_id p.amount_cents
                  (some de.1.comment)
              else r)), true)
        | none => (db, false)
      else (db, false)
  else (db, false)

/-- `view_delete_entry`: 404 when the row is absent, else delete. -/
def view_delete_entry (db : DB) (eid : Int) : DB × Bool :=
  if (get_cashflow db eid).isSome then (delete_cashflow db eid, true)
  else (db, false)

/-! ### Concrete fixtures for witnesses and counterexamples -/

/-- A small database: one status, two types, one category (under type 1) with
one subcategory, and one ledger row. -/
def exDB : DB :=
  DB.mk [⟨1, "Бизнес"⟩] [⟨1, "Пополнение"⟩, ⟨2, "Списание"⟩]
    [⟨1, 1, "Прочее"⟩] [⟨1, 1, "Инвестиции"⟩]
    [⟨1, "2024-01-05", 1, 1, 1, 1, 500, none⟩]

/-- A fully consistent form whose amount field is the negative string "-1". -/
def exFormNeg : EntryForm := ⟨"2024-01-02", "1", "1", "1", "1", "-1", ""⟩

/-- A consistent form with a zero amount. -/
def exFormZero : EntryForm := ⟨"2024-01-02", "1", "1", "1", "1", "0", ""⟩

/-- A form with a bad status and a bad (empty) amount. -/
def exFormBad : EntryForm := ⟨"2024-01-02", "", "1", "1", "1", "", ""⟩

/-- A chain-violating form: type 2 submitted, but category 1 belongs to type 1. -/
def exFormChain : EntryForm := ⟨"2024-01-02", "1", "2", "1", "1", "10", ""⟩

/-- A fully valid form (amount "1 234,50"). -/
def exFormOk : EntryForm := ⟨"2024-01-02", "1", "1", "1", "1", "1 234,50", ""⟩

example :
    validate_entry_form exDB exFormNeg =
      some (⟨some "2024-01-02", some 1, some 1, some 1, some 1, some (-100),
        some "-1", ""⟩, []) := by decide

example :
    (validate_entry_form exDB exFormZero).map (fun de => de.2) =
      some [msgAmountInvalid] := by decide

/-! ### Inversion lemmas for the validation blocks -/

theorem validate_some_inv (db : DB) (form : EntryForm) (d : EntryData)
    (errs : List String) (h : validate_entry_form db form = some (d, errs)) :
    ∃ amErrs ac ar, d = baseData db form ac ar ∧
      errs = baseErrors db form ++ amErrs ∧
      ((parse_amount form.amount = .invalid ∨ parse_amount form.amount = .ok 0) →
        amErrs = [msgAmountInvalid] ∧ ac = none ∧ ar = none) ∧
      (∀ c, parse_amount form.amount = .ok c → c ≠ 0 →
        amErrs = [] ∧ ac = some c ∧ ar = some form.amount) := by
  unfold validate_entry_form at h
  cases hA : parse_amount form.amount <;> rw [hA] at h
  · simp only [Option.some.injEq, Prod.mk.injEq] at h
    obtain ⟨hd, he⟩ := h
    exact ⟨[msgAmountInvalid], none, none, hd.symm, he.symm,
      fun _ => ⟨rfl, rfl, rfl⟩, fun c hc => nomatch hc⟩
  · simp at h
  · rename_i cents
    by_cases hz : cents = 0
    · subst hz
      simp only [if_pos, Option.some.injEq, Prod.mk.injEq] at h
      obtain ⟨hd, he⟩ := h
      refine ⟨[msgAmountInvalid], none, none, hd.symm, he.symm,
        fun _ => ⟨rfl, rfl, rfl⟩, ?_⟩
      intro c hc hc0
      cases hc
      exact absurd rfl hc0
    · simp only [if_neg hz, Option.some.injEq, Prod.mk.injEq] at h
      obtain ⟨hd, he⟩ := h
      refine ⟨[], some cents, some form.amount, hd.symm, by simp [he.symm], ?_, ?_⟩
      · intro hbad
        rcases hbad with hbad | hbad
        · cases hbad
        · cases hbad
          exact absurd rfl hz
      · intro c hc _
        cases hc
        exact ⟨rfl, rfl, rfl⟩

theorem checkRecorded_fst (s : String) :
    (checkRecorded s).1 = none ∨ (checkRecorded s).1 = some (pyStrip s) := by
  unfold checkRecorded
  by_cases h : pyStrip s = ""
  · rw [if_pos h]; exact Or.inl rfl
  · rw [if_neg h]; exact Or.inr rfl

theorem checkRecorded_nil (s : String) (h : (checkRecorded s).2 = []) :
    (checkRecorded s).1 = some (pyStrip s) := by
  unfold checkRecorded at h ⊢
  by_cases he : pyStrip s = ""
  · rw [if_pos he] at h; simp at h
  · rw [if_neg he]

theorem refCheck_fst {α : Type} (lookup : Int → Option α) (mr mm : String)
    (chain : α → List String) (raw : String) :
    (refCheck lookup mr mm chain raw).1 = none ∨
      (refCheck lookup mr mm chain raw).1 = parse_int raw := by
  unfold refCheck
  cases hp : parse_int raw
  · exact Or.inl rfl
  · rename_i n
    by_cases hz : n = 0
    · simp [hz]
    · cases hg : lookup n <;> simp [hz, hg]

theorem refCheck_nil {α : Type} (lookup : Int → Option α) (mr mm : String)
    (chain : α → List String) (raw : String)
    (h : (refCheck lookup mr mm chain raw).2 = []) :
    ∃ n x, parse_int raw = some n ∧ n ≠ 0 ∧
      (refCheck lookup mr mm chain raw).1 = some n ∧
      lookup n = some x ∧ chain x = [] := by
  unfold refCheck at h ⊢
  cases hp : parse_int raw <;> rw [hp] at h
  · simp at h
  · rename_i n
    by_cases hz : n = 0
    · simp [hz] at h
    · simp only [if_neg hz] at h ⊢
      cases hg : lookup n <;> rw [hg] at h
      · simp at h
      · rename_i x
        exact ⟨n, x, rfl, hz, rfl, hg, h⟩

theorem mem_refCheck {α : Type} (lookup : Int → Option α) (mr mm m : String)
    (chain : α → List String) (raw : String)
    (h : m ∈ (refCheck lookup mr mm chain raw).2) :
    m = mr ∨ m = mm ∨
      ∃ n x, parse_int raw = some n ∧ lookup n = some x ∧ m ∈ chain x := by
  unfold refCheck at h
  cases hp : parse_int raw <;> rw [hp] at h
  · exact Or.inl (by simpa using h)
  · rename_i n
    by_cases hz : n = 0
    · simp only [if_pos hz] at h
      exact Or.inl (by simpa using h)
    · simp only [if_neg hz] at h
      cases hg : lookup n <;> rw [hg] at h
      · exact Or.inr (Or.inl (by simpa using h))
      · rename_i x
        exact Or.inr (Or.inr ⟨n, x, rfl, hg, h⟩)

theorem refCheck_chain_mem {α : Type} (lookup : Int → Option α) (mr mm m : String)
    (chain : α → List String) (raw : String) (n : Int) (x : α)
    (hp : parse_int raw = some n) (hn : n ≠ 0) (hl : lookup n = some x)
    (hm : m ∈ chain x) : m ∈ (refCheck lookup mr mm chain raw).2 := by
  unfold refCheck
  rw [hp]
  simp only [if_neg hn]
  rw [hl]
  exact hm

theorem mem_chainErrCategory (cat : CategoryRow) (tid : Option Int) (m : String)
    (h : m ∈ chainErrCategory cat tid) : m = msgCategoryChain := by
  unfold chainErrCategory at h
  cases tid
  · simp at h
  · rename_i t
    by_cases hc : t ≠ 0 ∧ cat.type_id ≠ t
    · simp only [if_pos hc] at h; simpa using h
    · simp only [if_neg hc] at h; simp at h

theorem mem_chainErrSubcategory (sub : SubcategoryInfo) (cid tid : Option Int)
    (m : String) (h : m ∈ chainErrSubcategory sub cid tid) :
    m = msgSubcategoryChainCat ∨ m = msgSubcategoryChainType := by
  unfold chainErrSubcategory at h
  rcases List.mem_append.mp h with h1 | h1
  · left
    cases cid
    · simp at h1
    · rename_i c
      by_cases hc : c ≠ 0 ∧ sub.category_id ≠ c
      · simp only [if_pos hc] at h1; simpa using h1
      · simp only [if_neg hc] at h1; simp at h1
  · right
    cases tid
    · simp at h1
    · rename_i t
      by_cases hc : t ≠ 0 ∧ sub.type_id ≠ t
      · simp only [if_pos hc] at h1; simpa using h1
      · simp only [if_neg hc] at h1; simp at h1

theorem mem_checkRecorded (s m : String) (h : m ∈ (checkRecorded s).2) :
    m = msgDateRequired := by
  unfold checkRecorded at h
  by_cases he : pyStrip s = ""
  · rw [if_pos he] at h; simpa using h
  · rw [if_neg he] at h; simp at h

/-- The amount message is appended only by the amount block. -/
theorem msgAmount_not_mem_base (db : DB) (form : EntryForm) :
    msgAmountInvalid ∉ baseErrors db form := by
  intro hm
  unfold baseErrors at hm
  simp only [List.mem_append] at hm
  rcases hm with ((((h | h) | h) | h) | h)
  · exact absurd (mem_checkRecorded _ _ h) (by decide)
  · rcases mem_refCheck _ _ _ _ _ _ h with h | h | ⟨n, x, -, -, h⟩
    · exact absurd h (by decide)
    · exact absurd h (by decide)
    · simp at h
  · rcases mem_refCheck _ _ _ _ _ _ h with h | h | ⟨n, x, -, -, h⟩
    · exact absurd h (by decide)
    · exact absurd h (by decide)
    · simp at h
  · rcases mem_refCheck _ _ _ _ _ _ h with h | h | ⟨n, x, -, -, h⟩
    · exact absurd h (by decide)
    · exact absurd h (by decide)
    · exact absurd (mem_chainErrCategory _ _ _ h) (by decide)
  · rcases mem_refCheck _ _ _ _ _ _ h with h | h | ⟨n, x, -, -, h⟩
    · exact absurd h (by decide)
    · exact absurd h (by decide)
    · rcases mem_chainErrSubcategory _ _ _ _ h with h | h <;>
        exact absurd h (by decide)

theorem chainErrCategory_mem (cat : CategoryRow) (t : Int) (ht : t ≠ 0)
    (hne : cat.type_id ≠ t) : msgCategoryChain ∈ chainErrCategory cat (some t) := by
  show msgCategoryChain ∈
    (if t ≠ 0 ∧ cat.type_id ≠ t then [msgCategoryChain] else [])
  rw [if_pos ⟨ht, hne⟩]
  exact List.mem_singleton.mpr rfl

theorem chainErrSubcategory_memCat (sub : SubcategoryInfo) (c : Int)
    (tid : Option Int) (hc : c ≠ 0) (hne : sub.category_id ≠ c) :
    msgSubcategoryChainCat ∈ chainErrSubcategory sub (some c) tid := by
  apply List.mem_append_left
  show msgSubcategoryChainCat ∈
    (if c ≠ 0 ∧ sub.category_id ≠ c then [msgSubcategoryChainCat] else [])
  rw [if_pos ⟨hc, hne⟩]
  exact List.mem_singleton.mpr rfl

theorem chainErrSubcategory_memType (sub : SubcategoryInfo) (cid : Option Int)
    (t : Int) (ht : t ≠ 0) (hne : sub.type_id ≠ t) :
    msgSubcategoryChainType ∈ chainErrSubcategory sub cid (some t) := by
  apply List.mem_append_right
  show msgSubcategoryChainType ∈
    (if t ≠ 0 ∧ sub.type_id ≠ t then [msgSubcategoryChainType] else [])
  rw [if_pos ⟨ht, hne⟩]
  exact List.mem_singleton.mpr rfl

/-- When validation reports no error, every field of the normalized record is
present, the foreign keys exist, the amount is a nonzero integer number of
cents, and the comment is the stripped raw comment. -/
theorem validate_nil_spec (db : DB) (form : EntryForm) (d : EntryData)
    (errs : List String) (h : validate_entry_form db form = some (d, errs))
    (hnil : errs = []) :
    d.recorded_on = some (pyStrip form.recorded_on) ∧
    (∃ n, d.status_id = some n ∧ (get_status db n).isSome) ∧
    (∃ n, d.type_id = some n ∧ (get_type db n).isSome) ∧
    (∃ n, d.category_id = some n ∧ (get_category db n).isSome) ∧
    (∃ n, d.subcategory_id = some n ∧ (get_subcategory db n).isSome) ∧
    (∃ c, d.amount_cents = some c ∧ c ≠ 0) ∧
    d.comment = pyStrip form.comment := by
  obtain ⟨amErrs, ac, ar, hd, he, hbad, hok⟩ := validate_some_inv db form d errs h
  subst hd
  rw [hnil] at he
  obtain ⟨hbase, ham⟩ := List.append_eq_nil.mp he.symm
  unfold baseErrors at hbase
  obtain ⟨h4, h5⟩ := List.append_eq_nil.mp hbase
  obtain ⟨h3, hca⟩ := List.append_eq_nil.mp h4
  obtain ⟨h2, hty⟩ := List.append_eq_nil.mp h3
  obtain ⟨hr, hst⟩ := List.append_eq_nil.mp h2
  refine ⟨checkRecorded_nil _ hr, ?_, ?_, ?_, ?_, ?_, rfl⟩
  · obtain ⟨n, x, -, -, hfst, hlook, -⟩ := refCheck_nil _ _ _ _ _ hst
    exact ⟨n, hfst, by rw [hlook]; rfl⟩
  · obtain ⟨n, x, -, -, hfst, hlook, -⟩ := refCheck_nil _ _ _ _ _ hty
    exact ⟨n, hfst, by rw [hlook]; rfl⟩
  · obtain ⟨n, x, -, -, hfst, hlook, -⟩ := refCheck_nil _ _ _ _ _ hca
    exact ⟨n, hfst, by rw [hlook]; rfl⟩
  · obtain ⟨n, x, -, -, hfst, hlook, -⟩ := refCheck_nil _ _ _ _ _ h5
    exact ⟨n, hfst, by rw [hlook]; rfl⟩
  · cases hA : parse_amount form.amount
    · obtain ⟨hm, -, -⟩ := hbad (Or.inl hA)
      rw [ham] at hm
      exact absurd hm (by simp)
    · unfold validate_entry_form at h
      rw [hA] at h
      simp at h
    · rename_i c
      by_cases hz : c = 0
      · subst hz
        obtain ⟨hm, -, -⟩ := hbad (Or.inr hA)
        rw [ham] at hm
        exact absurd hm (by simp)
      · obtain ⟨-, hac, -⟩ := hok c hA hz
        exact ⟨c, by rw [hac]; rfl, hz⟩

/-- C1 (amended): for every raw field map, if the amount fails to parse or
parses to exactly zero minor units, validation reports the amount error and
stores no normalized amount; a nonzero parsed amount — including a negative
one — is stored without an amount error.  (The claim's original "non-positive
is an error" is refuted by `entry_amount_negative_accepted_cex`.) -/
theorem amount_check_spec (db : DB) (form : EntryForm) (d : EntryData)
    (errs : List String) (h : validate_entry_form db form = some (d, errs)) :
    ((parse_amount form.amount = AmountOut.invalid ∨
        parse_amount form.amount = AmountOut.ok 0) →
      msgAmountInvalid ∈ errs ∧ d.amount_cents = none) ∧
    (∀ c, parse_amount form.amount = AmountOut.ok c → c ≠ 0 →
      d.amount_cents = some c ∧ msgAmountInvalid ∉ errs) := by
  obtain ⟨amErrs, ac, ar, hd, he, hbad, hok⟩ := validate_some_inv db form d errs h
  subst hd
  subst he
  constructor
  · intro hb
    obtain ⟨ham, hac, -⟩ := hbad hb
    subst ham
    subst hac
    exact ⟨List.mem_append_right _ (List.mem_singleton.mpr rfl), rfl⟩
  · intro c hc hc0
    obtain ⟨ham, hac, -⟩ := hok c hc hc0
    subst ham
    subst hac
    refine ⟨rfl, ?_⟩
    intro hm
    rw [List.append_nil] at hm
    exact msgAmount_not_mem_base db form hm

theorem commitPayload_amount (d : EntryData) (p : CashPayload)
    (h : commitPayload d = some p) : d.amount_cents = some p.amount_cents := by
  unfold commitPayload at h
  rw [Option.bind_eq_some] at h
  obtain ⟨ro, hro, h⟩ := h
  rw [Option.bind_eq_some] at h
  obtain ⟨si, hsi, h⟩ := h
  rw [Option.bind_eq_some] at h
  obtain ⟨ti, hti, h⟩ := h
  rw [Option.bind_eq_some] at h
  obtain ⟨ci, hci, h⟩ := h
  rw [Option.bind_eq_some] at h
  obtain ⟨sci, hsci, h⟩ := h
  rw [Option.map_eq_some'] at h
  obtain ⟨a, ha, hp⟩ := h
  subst hp
  exact ha

theorem view_create_entry_cases (db : DB) (form : EntryForm) (newId : Int) :
    (view_create_entry db form newId).1 = db ∨
    ∃ d errs p, validate_entry_form db form = some (d, errs) ∧ errs = [] ∧
      commitPayload d = some p ∧
      (view_create_entry db form newId).1 =
        DB.mk db.statuses db.types db.categories db.subcategories
          (db.cashflows ++ [CashflowRow.mk newId p.recorded_on p.status_id
            p.type_id p.category_id p.subcategory_id p.amount_cents
            (some d.comment)]) := by
  unfold view_create_entry
  cases hv : validate_entry_form db form
  · exact Or.inl rfl
  · rename_i de
    by_cases hnil : de.2 = []
    · simp only [if_pos hnil]
      cases hp : commitPayload de.1
      · exact Or.inl rfl
      · rename_i p
        exact Or.inr ⟨de.1, de.2, p, rfl, hnil, hp, rfl⟩
    · simp only [if_neg hnil]
      exact Or.inl trivial

theorem view_update_entry_cases (db : DB) (eid : Int) (form : EntryForm) :
    (view_update_entry db eid form).1 = db ∨
    ∃ d errs p, validate_entry_form db form = some (d, errs) ∧ errs = [] ∧
      commitPayload d = some p ∧
      (view_update_entry db eid form).1 =
        DB.mk db.statuses db.types db.categories db.subcategories
          (db.cashflows.map (fun r =>
            if r.id == eid then
              CashflowRow.mk r.id p.recorded_on p.status_id p.type_id
                p.category_id p.subcategory_id p.amount_cents (some d.comment)
            else r)) := by
  unfold view_update_entry
  by_cases hex : (get_cashflow db eid).isSome
  · rw [if_pos hex]
    cases hv : validate_entry_form db form
    · exact Or.inl rfl
    · rename_i de
      by_cases hnil : de.2 = []
      · simp only [if_pos hnil]
        cases hp : commitPayload de.1
        · exact Or.inl rfl
        · rename_i p
          exact Or.inr ⟨de.1, de.2, p, rfl, hnil, hp, rfl⟩
      · simp only [if_neg hnil]
        exact Or.inl trivial
  · rw [if_neg hex]
    exact Or.inl rfl

/-- The schema invariant claimed implicitly by the validated write paths:
no stored ledger row has a zero amount. -/
def nonzeroAmounts (db : DB) : Prop :=
  ∀ r ∈ db.cashflows, r.amount_cents ≠ 0

instance (db : DB) : Decidable (nonzeroAmounts db) :=
  decidable_of_iff (∀ r ∈ db.cashflows, r.amount_cents ≠ 0) Iff.rfl

/-- The concrete data record produced for `exFormZero`. -/
def exZeroData : EntryData :=
  ⟨some "2024-01-02", some 1, some 1, some 1, some 1, none, none, ""⟩

/-- The concrete data record produced for `exFormNeg`. -/
def exNegData : EntryData :=
  ⟨some "2024-01-02", some 1, some 1, some 1, some 1, some (-100), some "-1", ""⟩

/-- C1 witness: `amount_check_spec` applied to the zero-amount form. -/
theorem amount_check_spec_witness :
    msgAmountInvalid ∈ [msgAmountInvalid] ∧ exZeroData.amount_cents = none :=
  (amount_check_spec exDB exFormZero exZeroData [msgAmountInvalid]
    (by decide)).1 (Or.inr (by decide))

/-- C1 counterexample: the amount "-1" parses to the non-positive value
-100 minor units, yet validation reports no error at all and stores
`amount_cents = -100`: a negative parsed amount is not a validation error. -/
theorem entry_amount_negative_accepted_cex :
    parse_amount "-1" = AmountOut.ok (-100) ∧ (-100 : Int) < 0 ∧
    validate_entry_form exDB exFormNeg = some (exNegData, []) ∧
    exNegData.amount_cents = some (-100) := by decide

/-- C2 (amended): on every submission on which validation completes (the
amount field is not a Decimal special value — those raise out of
`validate_entry_form` before any error list exists, see
`entry_chain_mismatch_crash_cex`), a submitted category that does not belong
to the submitted type, or a submitted subcategory that does not belong to the
submitted category (or, transitively, whose owning type differs from the
submitted type), always puts the corresponding explicit chain error message
in the error list; and the validated record never contains a reference id
different from the parsed submitted one (no silent correction). -/
theorem entry_chain_mismatch_error (db : DB) (form : EntryForm) (d : EntryData)
    (errs : List String) (h : validate_entry_form db form = some (d, errs)) :
    (∀ t c cat, parse_int form.type_id = some t → t ≠ 0 →
      parse_int form.category_id = some c → c ≠ 0 →
      get_category db c = some cat → cat.type_id ≠ t →
      msgCategoryChain ∈ errs) ∧
    (∀ c s sub, parse_int form.category_id = some c → c ≠ 0 →
      parse_int form.subcategory_id = some s → s ≠ 0 →
      get_subcategory db s = some sub → sub.category_id ≠ c →
      msgSubcategoryChainCat ∈ errs) ∧
    (∀ t s sub, parse_int form.type_id = some t → t ≠ 0 →
      parse_int form.subcategory_id = some s → s ≠ 0 →
      get_subcategory db s = some sub → sub.type_id ≠ t →
      msgSubcategoryChainType ∈ errs) ∧
    (d.status_id = none ∨ d.status_id = parse_int form.status_id) ∧
    (d.type_id = none ∨ d.type_id = parse_int form.type_id) ∧
    (d.category_id = none ∨ d.category_id = parse_int form.category_id) ∧
    (d.subcategory_id = none ∨ d.subcategory_id = parse_int form.subcategory_id) := by
  obtain ⟨amErrs, ac, ar, hd, he, -, -⟩ := validate_some_inv db form d errs h
  subst hd
  subst he
  refine ⟨?_, ?_, ?_, ?_, ?_, ?_, ?_⟩
  · intro t c cat hpt ht hpc hc hcat hne
    apply List.mem_append_left
    unfold baseErrors
    apply List.mem_append_left
    apply List.mem_append_right
    rw [hpt]
    exact refCheck_chain_mem _ _ _ _ _ _ c cat hpc hc hcat
      (chainErrCategory_mem cat t ht hne)
  · intro c s sub hpc hc hps hs hsub hne
    apply List.mem_append_left
    unfold baseErrors
    apply List.mem_append_right
    rw [hpc]
    exact refCheck_chain_mem _ _ _ _ _ _ s sub hps hs hsub
      (chainErrSubcategory_memCat sub c _ hc hne)
  · intro t s sub hpt ht hps hs hsub hne
    apply List.mem_append_left
    unfold baseErrors
    apply List.mem_append_right
    rw [hpt]
    exact refCheck_chain_mem _ _ _ _ _ _ s sub hps hs hsub
      (chainErrSubcategory_memType sub _ t ht hne)
  · exact refCheck_fst (get_status db) msgStatusRequired msgStatusMissing
      (fun _ => []) form.status_id
  · exact refCheck_fst (get_type db) msgTypeRequired msgTypeMissing
      (fun _ => []) form.type_id
  · exact refCheck_fst (get_category db) msgCategoryRequired msgCategoryMissing
      (fun cat => chainErrCategory cat (parse_int form.type_id)) form.category_id
  · exact refCheck_fst (get_subcategory db) msgSubcategoryRequired
      msgSubcategoryMissing
      (fun sub => chainErrSubcategory sub (parse_int form.category_id)
        (parse_int form.type_id)) form.subcategory_id

/-- C2 witness: submitting type 2 with category 1 (owned by type 1) puts the
category-chain message in the error list. -/
theorem entry_chain_mismatch_error_witness :
    msgCategoryChain ∈ [msgCategoryChain, msgSubcategoryChainType] :=
  (entry_chain_mismatch_error exDB exFormChain
    (baseData exDB exFormChain (some 1000) (some "10"))
    [msgCategoryChain, msgSubcategoryChainType] (by decide)).1 2 1
    ⟨1, 1, "Прочее"⟩ (by decide) (by decide) (by decide) (by decide)
    (by decide) (by decide)

/-- A chain-violating form (type 2 vs category 1 owned by type 1) whose
amount field is the Decimal special value "inf". -/
def exFormChainInf : EntryForm := ⟨"2024-01-02", "1", "2", "1", "1", "inf", ""⟩

/-- C2 counterexample: a submission whose category does not belong to the
submitted type, yet validation yields NO validation error message at all:
`Decimal("inf")` constructs, `quantize` raises `InvalidOperation` outside the
`try` (server.py:163, 476), the exception escapes `validate_entry_form` and
the user gets the generic 500 page.  The original claim's "always yields a
validation error" is therefore false. -/
theorem entry_chain_mismatch_crash_cex :
    parse_int exFormChainInf.type_id = some 2 ∧
    parse_int exFormChainInf.category_id = some 1 ∧
    get_category exDB 1 = some ⟨1, 1, "Прочее"⟩ ∧
    ((⟨1, 1, "Прочее"⟩ : CategoryRow).type_id ≠ 2) ∧
    parse_amount exFormChainInf.amount = AmountOut.crash ∧
    validate_entry_form exDB exFormChainInf = none := by decide

/-- C8 (amended): on every raw field map on which validation completes (the
amount field is not a Decimal special value — those raise out of
`validate_entry_form` and produce neither outcome, see
`entry_validation_crash_cex`), validation either yields a fully normalized
record (stripped date present, all four foreign keys parsed and existing,
nonzero integer cents, stripped comment) when the error list is empty, or a
non-empty error list; fields are checked independently: a bad status and a
bad amount contribute at least two messages. -/
theorem entry_validation_complete_or_errors (db : DB) (form : EntryForm)
    (d : EntryData) (errs : List String)
    (h : validate_entry_form db form = some (d, errs)) :
    (errs = [] →
      d.recorded_on = some (pyStrip form.recorded_on) ∧
      (∃ n, d.status_id = some n ∧ (get_status db n).isSome) ∧
      (∃ n, d.type_id = some n ∧ (get_type db n).isSome) ∧
      (∃ n, d.category_id = some n ∧ (get_category db n).isSome) ∧
      (∃ n, d.subcategory_id = some n ∧ (get_subcategory db n).isSome) ∧
      (∃ c, d.amount_cents = some c ∧ c ≠ 0) ∧
      d.comment = pyStrip form.comment) ∧
    ((checkStatus db form.status_id).2 ≠ [] →
      (parse_amount form.amount = AmountOut.invalid ∨
        parse_amount form.amount = AmountOut.ok 0) →
      2 ≤ errs.length) := by
  constructor
  · exact validate_nil_spec db form d errs h
  · intro hs ha
    obtain ⟨amErrs, ac, ar, hd, he, hbad, -⟩ := validate_some_inv db form d errs h
    obtain ⟨ham, -, -⟩ := hbad ha
    subst he
    subst ham
    have h1 : 0 < (checkStatus db form.status_id).2.length :=
      List.length_pos.mpr hs
    have h2 : (checkStatus db form.status_id).2.length ≤
        (baseErrors db form).length := by
      unfold baseErrors
      simp only [List.length_append]
      omega
    simp only [List.length_append, List.length_singleton]
    omega

/-- C8 witness: a form with an empty status and an empty amount produces both
the status message and the amount message. -/
theorem entry_validation_complete_or_errors_witness :
    2 ≤ ([msgStatusRequired, msgAmountInvalid] : List String).length :=
  (entry_validation_complete_or_errors exDB exFormBad
    (baseData exDB exFormBad none none) [msgStatusRequired, msgAmountInvalid]
    (by decide)).2 (by decide) (Or.inl (by decide))

/-- An otherwise fully valid form whose amount field is "inf". -/
def exFormInf : EntryForm := ⟨"2024-01-02", "1", "1", "1", "1", "inf", ""⟩

/-- C8 counterexample: for the raw field map with amount "inf", validation
produces neither a normalized record nor an error list: the uncaught
`InvalidOperation` from `quantize` (server.py:163, 476) escapes
`validate_entry_form`, refuting the original claim's record-or-errors
dichotomy over EVERY raw field map. -/
theorem entry_validation_crash_cex :
    parse_amount "inf" = AmountOut.crash ∧
    validate_entry_form exDB exFormInf = none := by decide

/-- C10: when validation returns no errors the stored `amount_cents` is a
nonzero integer (negative values included — witnessed by the last conjunct),
and the nonzero-amount invariant is preserved by the create, update and
delete entry views. -/
theorem entry_amount_nonzero_invariant (db : DB) (form : EntryForm)
    (newId eid : Int) :
    (∀ d errs, validate_entry_form db form = some (d, errs) → errs = [] →
      ∃ c, d.amount_cents = some c ∧ c ≠ 0) ∧
    (nonzeroAmounts db → nonzeroAmounts (view_create_entry db form newId).1) ∧
    (nonzeroAmounts db → nonzeroAmounts (view_update_entry db eid form).1) ∧
    (nonzeroAmounts db → nonzeroAmounts (view_delete_entry db eid).1) ∧
    (validate_entry_form exDB exFormNeg = some (exNegData, []) ∧
      exNegData.amount_cents = some (-100)) := by
  refine ⟨?_, ?_, ?_, ?_, by decide, by decide⟩
  · intro d errs h hnil
    exact (validate_nil_spec db form d errs h hnil).2.2.2.2.2.1
  · intro hnz
    rcases view_create_entry_cases db form newId with
      hc | ⟨d, errs, p, hv, hnil, hp, hc⟩
    · rw [hc]; exact hnz
    · rw [hc]
      intro r hr
      have hr2 : r ∈ db.cashflows ++
          [CashflowRow.mk newId p.recorded_on p.status_id p.type_id
            p.category_id p.subcategory_id p.amount_cents (some d.comment)] := hr
      rcases List.mem_append.mp hr2 with hm | hm
      · exact hnz r hm
      · rw [List.mem_singleton.mp hm]
        obtain ⟨c, hac, hc0⟩ := (validate_nil_spec db form d errs hv hnil).2.2.2.2.2.1
        have hca := commitPayload_amount d p hp
        rw [hac] at hca
        show p.amount_cents ≠ 0
        rw [← Option.some.inj hca]
        exact hc0
  · intro hnz
    rcases view_update_entry_cases db eid form with
      hc | ⟨d, errs, p, hv, hnil, hp, hc⟩
    · rw [hc]; exact hnz
    · rw [hc]
      intro r hr
      have hr2 : r ∈ db.cashflows.map (fun r0 =>
          if r0.id == eid then
            CashflowRow.mk r0.id p.recorded_on p.status_id p.type_id
              p.category_id p.subcategory_id p.amount_cents (some d.comment)
          else r0) := hr
      obtain ⟨r0, hr0, hfr⟩ := List.mem_map.mp hr2
      rw [← hfr]
      by_cases hid : (r0.id == eid) = true
      · rw [if_pos hid]
        obtain ⟨c, hac, hc0⟩ := (validate_nil_spec db form d errs hv hnil).2.2.2.2.2.1
        have hca := commitPayload_amount d p hp
        rw [hac] at hca
        show p.amount_cents ≠ 0
        rw [← Option.some.inj hca]
        exact hc0
      · rw [if_neg hid]
        exact hnz r0 hr0
  · intro hnz
    unfold view_delete_entry
    by_cases hex : (get_cashflow db eid).isSome
    · rw [if_pos hex]
      intro r hr
      have hr2 : r ∈ db.cashflows.filter (fun r0 => r0.id != eid) := hr
      exact hnz r (List.mem_filter.mp hr2).1
    · rw [if_neg hex]
      exact hnz

/-- C10 witness: inserting a validated entry into the example database keeps
every stored amount nonzero. -/
theorem entry_amount_nonzero_invariant_witness :
    nonzeroAmounts (view_create_entry exDB exFormOk 2).1 :=
  (entry_amount_nonzero_invariant exDB exFormOk 2 1).2.1 (by decide)

/-! ### Reference deletion claims (C7, C9) -/

theorem count_dependencies_pos_cat (db : DB) (tid : Int) :
    0 < count_dependencies db .categories_type_id tid ↔
      ∃ c ∈ db.categories, c.type_id = tid := by
  show 0 < (db.categories.filter (fun r => r.type_id == tid)).length ↔ _
  rw [List.length_pos, Ne, List.filter_eq_nil_iff]
  simp

theorem count_dependencies_pos_cf (db : DB) (tid : Int) :
    0 < count_dependencies db .cashflows_type_id tid ↔
      ∃ r ∈ db.cashflows, r.type_id = tid := by
  show 0 < (db.cashflows.filter (fun r => r.type_id == tid)).length ↔ _
  rw [List.length_pos, Ne, List.filter_eq_nil_iff]
  simp

/-- C7: deleting a type is refused with the dependency error precisely when a
category or a ledger row still references it (the guard is the explicit
dependency count, equivalent to row existence); with both counts zero the
delete succeeds, removing exactly the type row and touching nothing else. -/
theorem type_delete_dependency_guard (db : DB) (tid : Int) :
    (0 < count_dependencies db .categories_type_id tid ↔
      ∃ c ∈ db.categories, c.type_id = tid) ∧
    (0 < count_dependencies db .cashflows_type_id tid ↔
      ∃ r ∈ db.cashflows, r.type_id = tid) ∧
    ((0 < count_dependencies db .categories_type_id tid ∨
        0 < count_dependencies db .cashflows_type_id tid) →
      handle_reference_delete db .type tid = ⟨db, some msgTypeDeleteBlocked⟩) ∧
    (count_dependencies db .categories_type_id tid = 0 →
      count_dependencies db .cashflows_type_id tid = 0 →
      handle_reference_delete db .type tid = ⟨delete_type db tid, none⟩ ∧
      (delete_type db tid).types = db.types.filter (fun t => t.id != tid) ∧
      (delete_type db tid).categories = db.categories ∧
      (delete_type db tid).subcategories = db.subcategories ∧
      (delete_type db tid).cashflows = db.cashflows) := by
  refine ⟨count_dependencies_pos_cat db tid, count_dependencies_pos_cf db tid,
    ?_, ?_⟩
  · intro hdep
    show (if 0 < count_dependencies db .categories_type_id tid ∨
        0 < count_dependencies db .cashflows_type_id tid then
      (⟨db, some msgTypeDeleteBlocked⟩ : DeleteOutcome)
    else ⟨delete_type db tid, none⟩) = ⟨db, some msgTypeDeleteBlocked⟩
    rw [if_pos hdep]
  · intro h1 h2
    have hno : ¬(0 < count_dependencies db .categories_type_id tid ∨
        0 < count_dependencies db .cashflows_type_id tid) := by
      rw [h1, h2]
      simp
    have hcat : ∀ c ∈ db.categories, c.type_id ≠ tid := by
      intro c hc hct
      exact absurd ((count_dependencies_pos_cat db tid).mpr ⟨c, hc, hct⟩)
        (by rw [h1]; simp)
    refine ⟨?_, rfl, ?_, ?_, rfl⟩
    · show (if 0 < count_dependencies db .categories_type_id tid ∨
          0 < count_dependencies db .cashflows_type_id tid then
        (⟨db, some msgTypeDeleteBlocked⟩ : DeleteOutcome)
      else ⟨delete_type db tid, none⟩) = ⟨delete_type db tid, none⟩
      rw [if_neg hno]
    · show db.categories.filter (fun c => c.type_id != tid) = db.categories
      rw [List.filter_eq_self]
      intro c hc
      simpa using hcat c hc
    · show db.subcategories.filter (fun s =>
        !(db.categories.any (fun c => c.id == s.category_id && c.type_id == tid))) =
          db.subcategories
      rw [List.filter_eq_self]
      intro s hs
      simp only [Bool.not_eq_true', List.any_eq_false, Bool.and_eq_true,
        beq_iff_eq, not_and]
      intro c hc _
      exact hcat c hc

/-- C7 witness: in the example database type 1 owns category 1 (delete is
blocked), while the fresh type 3 of `exDB7` has no dependents (delete
succeeds). -/
theorem type_delete_dependency_guard_witness :
    handle_reference_delete exDB RefEntity.type 1 =
      ⟨exDB, some msgTypeDeleteBlocked⟩ ∧
    handle_reference_delete exDB RefEntity.type 3 =
      ⟨delete_type exDB 3, none⟩ :=
  ⟨(type_delete_dependency_guard exDB 1).2.2.1 (Or.inl (by decide)),
    ((type_delete_dependency_guard exDB 3).2.2.2 (by decide) (by decide)).1⟩

/-- C9: for each reference kind, whenever the dependency counts consulted by
the handler are zero the outcome is the success page — the handler never
checks that a row with the id exists, so a missing id still reports success;
and the only possible error is the kind's dependency message (there is no
NotFound outcome). -/
theorem reference_delete_no_notfound (db : DB) (eid : Int) :
    (count_dependencies db .cashflows_status_id eid = 0 →
      (handle_reference_delete db .status eid).error = none) ∧
    (count_dependencies db .categories_type_id eid = 0 →
      count_dependencies db .cashflows_type_id eid = 0 →
      (handle_reference_delete db .type eid).error = none) ∧
    (count_dependencies db .subcategories_category_id eid = 0 →
      count_dependencies db .cashflows_category_id eid = 0 →
      (handle_reference_delete db .category eid).error = none) ∧
    (count_dependencies db .cashflows_subcategory_id eid = 0 →
      (handle_reference_delete db .subcategory eid).error = none) ∧
    (∀ entity, (handle_reference_delete db entity eid).error = none ∨
      (handle_reference_delete db entity eid).error = some msgStatusDeleteBlocked ∨
      (handle_reference_delete db entity eid).error = some msgTypeDeleteBlocked ∨
      (handle_reference_delete db entity eid).error = some msgCategoryDeleteBlocked ∨
      (handle_reference_delete db entity eid).error = some msgSubcategoryDeleteBlocked) := by
  refine ⟨?_, ?_, ?_, ?_, ?_⟩
  · intro h1
    show (if 0 < count_dependencies db .cashflows_status_id eid then
        (⟨db, some msgStatusDeleteBlocked⟩ : DeleteOutcome)
      else ⟨delete_status db eid, none⟩).error = none
    rw [if_neg (by rw [h1]; simp)]
  · intro h1 h2
    show (if 0 < count_dependencies db .categories_type_id eid ∨
        0 < count_dependencies db .cashflows_type_id eid then
        (⟨db, some msgTypeDeleteBlocked⟩ : DeleteOutcome)
      else ⟨delete_type db eid, none⟩).error = none
    rw [if_neg (by rw [h1, h2]; simp)]
  · intro h1 h2
    show (if 0 < count_dependencies db .subcategories_category_id eid ∨
        0 < count_dependencies db .cashflows_category_id eid then
        (⟨db, some msgCategoryDeleteBlocked⟩ : DeleteOutcome)
      else ⟨delete_category db eid, none⟩).error = none
    rw [if_neg (by rw [h1, h2]; simp)]
  · intro h1
    show (if 0 < count_dependencies db .cashflows_subcategory_id eid then
        (⟨db, some msgSubcategoryDeleteBlocked⟩ : DeleteOutcome)
      else ⟨delete_subcategory db eid, none⟩).error = none
    rw [if_neg (by rw [h1]; simp)]
  · intro entity
    cases entity
    · by_cases h : 0 < count_dependencies db .cashflows_status_id eid
      · refine Or.inr (Or.inl ?_)
        show (if 0 < count_dependencies db .cashflows_status_id eid then
            (⟨db, some msgStatusDeleteBlocked⟩ : DeleteOutcome)
          else ⟨delete_status db eid, none⟩).error = some msgStatusDeleteBlocked
        rw [if_pos h]
      · refine Or.inl ?_
        show (if 0 < count_dependencies db .cashflows_status_id eid then
            (⟨db, some msgStatusDeleteBlocked⟩ : DeleteOutcome)
          else ⟨delete_status db eid, none⟩).error = none
        rw [if_neg h]
    · by_cases h : 0 < count_dependencies db .categories_type_id eid ∨
          0 < count_dependencies db .cashflows_type_id eid
      · refine Or.inr (Or.inr (Or.inl ?_))
        show (if 0 < count_dependencies db .categories_type_id eid ∨
            0 < count_dependencies db .cashflows_type_id eid then
            (⟨db, some msgTypeDeleteBlocked⟩ : DeleteOutcome)
          else ⟨delete_type db eid, none⟩).error = some msgTypeDeleteBlocked
        rw [if_pos h]
      · refine Or.inl ?_
        show (if 0 < count_dependencies db .categories_type_id eid ∨
            0 < count_dependencies db .cashflows_type_id eid then
            (⟨db, some msgTypeDeleteBlocked⟩ : DeleteOutcome)
          else ⟨delete_type db eid, none⟩).error = none
        rw [if_neg h]
    · by_cases h : 0 < count_dependencies db .subcategories_category_id eid ∨
          0 < count_dependencies db .cashflows_category_id eid
      · refine Or.inr (Or.inr (Or.inr (Or.inl ?_)))
        show (if 0 < count_dependencies db .subcategories_category_id eid ∨
            0 < count_dependencies db .cashflows_category_id eid then
            (⟨db, some msgCategoryDeleteBlocked⟩ : DeleteOutcome)
          else ⟨delete_category db eid, none⟩).error = some msgCategoryDeleteBlocked
        rw [if_pos h]
      · refine Or.inl ?_
        show (if 0 < count_dependencies db .subcategories_category_id eid ∨
            0 < count_dependencies db .cashflows_category_id eid then
            (⟨db, some msgCategoryDeleteBlocked⟩ : DeleteOutcome)
          else ⟨delete_category db eid, none⟩).error = none
        rw [if_neg h]
    · by_cases h : 0 < count_dependencies db .cashflows_subcategory_id eid
      · refine Or.inr (Or.inr (Or.inr (Or.inr ?_)))
        show (if 0 < count_dependencies db .cashflows_subcategory_id eid then
            (⟨db, some msgSubcategoryDeleteBlocked⟩ : DeleteOutcome)
          else ⟨delete_subcategory db eid, none⟩).error = some msgSubcategoryDeleteBlocked
        rw [if_pos h]
      · refine Or.inl ?_
        show (if 0 < count_dependencies db .cashflows_subcategory_id eid then
            (⟨db, some msgSubcategoryDeleteBlocked⟩ : DeleteOutcome)
          else ⟨delete_subcategory db eid, none⟩).error = none
        rw [if_neg h]

/-- C9 witness: no status row with id 999 exists in `exDB` and no ledger row
references it, yet deletion reports success. -/
theorem reference_delete_no_notfound_witness :
    (handle_reference_delete exDB RefEntity.status 999).error = none :=
  (reference_delete_no_notfound exDB 999).1 (by decide)

/-! ### Ordering lemmas for the ledger listing (C3, C4) -/

theorem lexLe_total (l m : List Char) : (lexLe l m || lexLe m l) = true := by
  induction l generalizing m with
  | nil => simp [lexLe]
  | cons a as ih =>
    cases m with
    | nil => simp [lexLe]
    | cons b bs =>
      unfold lexLe
      rcases lt_trichotomy a b with h | h | h
      · simp [h, lt_asymm h]
      · subst h
        simp only [lt_irrefl, if_false]
        exact ih bs
      · simp [h, lt_asymm h]

theorem lexLe_trans : ∀ {l m k : List Char},
    lexLe l m = true → lexLe m k = true → lexLe l k = true := by
  intro l
  induction l with
  | nil =>
    intro m k h1 h2
    rfl
  | cons a as ih =>
    intro m k h1 h2
    cases m with
    | nil => simp [lexLe] at h1
    | cons b bs =>
      cases k with
      | nil => simp [lexLe] at h2
      | cons c cs =>
        unfold lexLe at h1 h2 ⊢
        rcases lt_trichotomy a b with hab | hab | hab
        · rcases lt_trichotomy b c with hbc | hbc | hbc
          · rw [if_pos (lt_trans hab hbc)]
          · subst hbc
            rw [if_pos hab]
          · rw [if_neg (lt_asymm hbc), if_pos hbc] at h2
            exact absurd h2 (by simp)
        · subst hab
          rcases lt_trichotomy a c with hac | hac | hac
          · rw [if_pos hac]
          · subst hac
            rw [if_neg (lt_irrefl a), if_neg (lt_irrefl a)] at h1
            rw [if_neg (lt_irrefl a), if_neg (lt_irrefl a)] at h2
            rw [if_neg (lt_irrefl a), if_neg (lt_irrefl a)]
            exact ih h1 h2
          · rw [if_neg (lt_asymm hac), if_pos hac] at h2
            exact absurd h2 (by simp)
        · rw [if_neg (lt_asymm hab), if_pos hab] at h1
          exact absurd h1 (by simp)

theorem lexLe_antisymm : ∀ {l m : List Char},
    lexLe l m = true → lexLe m l = true → l = m := by
  intro l
  induction l with
  | nil =>
    intro m h1 h2
    cases m with
    | nil => rfl
    | cons b bs => simp [lexLe] at h2
  | cons a as ih =>
    intro m h1 h2
    cases m with
    | nil => simp [lexLe] at h1
    | cons b bs =>
      unfold lexLe at h1 h2
      rcases lt_trichotomy a b with hab | hab | hab
      · rw [if_neg (lt_asymm hab), if_pos hab] at h2
        exact absurd h2 (by simp)
      · subst hab
        rw [if_neg (lt_irrefl a), if_neg (lt_irrefl a)] at h1
        rw [if_neg (lt_irrefl a), if_neg (lt_irrefl a)] at h2
        rw [ih h1 h2]
      · rw [if_neg (lt_asymm hab), if_pos hab] at h1
        exact absurd h1 (by simp)

theorem strLe_trans {a b c : String} (h1 : strLe a b = true)
    (h2 : strLe b c = true) : strLe a c = true := lexLe_trans h1 h2

theorem strLe_total (a b : String) : (strLe a b || strLe b a) = true :=
  lexLe_total a.data b.data

theorem strLe_antisymm {a b : String} (h1 : strLe a b = true)
    (h2 : strLe b a = true) : a = b := by
  have h := lexLe_antisymm h1 h2
  cases a
  cases b
  exact congrArg String.mk h

theorem rowLe_total (a b : CashflowRow) : (rowLe a b || rowLe b a) = true := by
  unfold rowLe
  by_cases h : a.recorded_on = b.recorded_on
  · rw [if_pos h, if_pos h.symm]
    rcases Int.le_total b.id a.id with h1 | h1 <;> simp [h1]
  · rw [if_neg h, if_neg (fun e => h e.symm)]
    exact strLe_total b.recorded_on a.recorded_on

theorem rowLe_trans (a b c : CashflowRow) (h1 : rowLe a b = true)
    (h2 : rowLe b c = true) : rowLe a c = true := by
  unfold rowLe at h1 h2 ⊢
  by_cases hab : a.recorded_on = b.recorded_on <;>
    by_cases hbc : b.recorded_on = c.recorded_on
  · rw [if_pos hab] at h1
    rw [if_pos hbc] at h2
    rw [if_pos (hab.trans hbc)]
    simp only [decide_eq_true_eq] at h1 h2 ⊢
    omega
  · rw [if_neg (fun e => hbc (hab.symm.trans e))]
    rw [if_neg hbc] at h2
    rw [hab]
    exact h2
  · rw [if_neg (fun e => hab (e.trans hbc.symm))]
    rw [if_neg hab] at h1
    rw [← hbc]
    exact h1
  · rw [if_neg hab] at h1
    rw [if_neg hbc] at h2
    by_cases hac : a.recorded_on = c.recorded_on
    · exfalso
      rw [← hac] at h2
      exact hab (strLe_antisymm h2 h1)
    · rw [if_neg hac]
      exact strLe_trans h2 h1

theorem rowLe_elim (a b : CashflowRow) (h : rowLe a b = true) :
    (a.recorded_on ≠ b.recorded_on ∧ strLe b.recorded_on a.recorded_on = true) ∨
    (a.recorded_on = b.recorded_on ∧ b.id ≤ a.id) := by
  unfold rowLe at h
  by_cases hd : a.recorded_on = b.recorded_on
  · rw [if_pos hd] at h
    exact Or.inr ⟨hd, by simpa using h⟩
  · rw [if_neg hd] at h
    exact Or.inl ⟨hd, h⟩

instance : IsTotal CashflowRow rowLeP :=
  ⟨fun a b => by
    rcases Bool.or_eq_true_iff.mp (rowLe_total a b) with h | h
    · exact Or.inl h
    · exact Or.inr h⟩

instance : IsTrans CashflowRow rowLeP := ⟨fun a b c => rowLe_trans a b c⟩

/-- The six optional filter conditions, unfolded. -/
theorem matchesFilters_iff (f : Filters) (r : CashflowRow) :
    matchesFilters f r = true ↔
      ((∀ d, f.date_from = some d → strLe d r.recorded_on = true) ∧
       (∀ d, f.date_to = some d → strLe r.recorded_on d = true) ∧
       (∀ v, f.status_id = some v → r.status_id = v) ∧
       (∀ v, f.type_id = some v → r.type_id = v) ∧
       (∀ v, f.category_id = some v → r.category_id = v) ∧
       (∀ v, f.subcategory_id = some v → r.subcategory_id = v)) := by
  unfold matchesFilters
  simp only [Bool.and_eq_true]
  constructor
  · rintro ⟨⟨⟨⟨⟨h1, h2⟩, h3⟩, h4⟩, h5⟩, h6⟩
    refine ⟨?_, ?_, ?_, ?_, ?_, ?_⟩
    · intro d hd
      rw [hd] at h1
      exact h1
    · intro d hd
      rw [hd] at h2
      exact h2
    · intro v hv
      rw [hv] at h3
      simpa using h3
    · intro v hv
      rw [hv] at h4
      simpa using h4
    · intro v hv
      rw [hv] at h5
      simpa using h5
    · intro v hv
      rw [hv] at h6
      simpa using h6
  · rintro ⟨h1, h2, h3, h4, h5, h6⟩
    refine ⟨⟨⟨⟨⟨?_, ?_⟩, ?_⟩, ?_⟩, ?_⟩, ?_⟩
    · cases hdf : f.date_from
      · rfl
      · rename_i d
        exact h1 d hdf
    · cases hdf : f.date_to
      · rfl
      · rename_i d
        exact h2 d hdf
    · cases hdf : f.status_id
      · rfl
      · rename_i v
        simpa using h3 v hdf
    · cases hdf : f.type_id
      · rfl
      · rename_i v
        simpa using h4 v hdf
    · cases hdf : f.category_id
      · rfl
      · rename_i v
        simpa using h5 v hdf
    · cases hdf : f.subcategory_id
      · rfl
      · rename_i v
        simpa using h6 v hdf

/-- Referential integrity of the ledger, as the SQLite foreign keys enforce
it: every ledger row's four reference ids exist, so every row survives the
listing query's inner joins. -/
def refIntegrity (db : DB) : Prop := ∀ r ∈ db.cashflows, joinOk db r = true

instance (db : DB) : Decidable (refIntegrity db) :=
  decidable_of_iff (∀ r ∈ db.cashflows, joinOk db r = true) Iff.rfl

/-- C3: the listing is a permutation of the rows that survive the joins and
match the filters, and it is sorted by recorded date descending with ties
broken by id descending. -/
theorem list_cashflows_ordered (db : DB) (f : Filters) :
    (list_cashflows db f).Perm
      (db.cashflows.filter (fun r => joinOk db r && matchesFilters f r)) ∧
    (list_cashflows db f).Pairwise (fun a b =>
      (a.recorded_on ≠ b.recorded_on ∧ strLe b.recorded_on a.recorded_on = true) ∨
      (a.recorded_on = b.recorded_on ∧ b.id ≤ a.id)) := by
  constructor
  · exact List.perm_insertionSort rowLeP _
  · have hs := List.sorted_insertionSort rowLeP
      (db.cashflows.filter (fun r => joinOk db r && matchesFilters f r))
    exact List.Pairwise.imp (fun hab => rowLe_elim _ _ hab) hs

/-- C4: under referential integrity, a row is listed exactly when it is in
the ledger and satisfies the conjunction of all supplied filters, both date
bounds inclusive. -/
theorem list_cashflows_filter_exact (db : DB) (f : Filters) (r : CashflowRow)
    (hint : refIntegrity db) :
    r ∈ list_cashflows db f ↔
      (r ∈ db.cashflows ∧
       (∀ d, f.date_from = some d → strLe d r.recorded_on = true) ∧
       (∀ d, f.date_to = some d → strLe r.recorded_on d = true) ∧
       (∀ v, f.status_id = some v → r.status_id = v) ∧
       (∀ v, f.type_id = some v → r.type_id = v) ∧
       (∀ v, f.category_id = some v → r.category_id = v) ∧
       (∀ v, f.subcategory_id = some v → r.subcategory_id = v)) := by
  unfold list_cashflows
  rw [List.mem_insertionSort, List.mem_filter]
  constructor
  · rintro ⟨hmem, hcond⟩
    rw [Bool.and_eq_true] at hcond
    exact ⟨hmem, (matchesFilters_iff f r).mp hcond.2⟩
  · rintro ⟨hmem, hconds⟩
    refine ⟨hmem, ?_⟩
    rw [Bool.and_eq_true]
    exact ⟨hint r hmem, (matchesFilters_iff f r).mpr hconds⟩

/-- Rows dated on the two January boundaries and outside them. -/
def exRowJan1 : CashflowRow := ⟨1, "2024-01-01", 1, 1, 1, 1, 500, none⟩
def exRowJan31 : CashflowRow := ⟨2, "2024-01-31", 1, 1, 1, 1, 700, none⟩
def exRowFeb : CashflowRow := ⟨3, "2024-02-05", 1, 1, 1, 1, 900, none⟩

def exDB4 : DB :=
  DB.mk [⟨1, "Бизнес"⟩] [⟨1, "Пополнение"⟩] [⟨1, 1, "Прочее"⟩]
    [⟨1, 1, "Инвестиции"⟩] [exRowJan1, exRowJan31, exRowFeb]

/-- `date_from=2024-01-01`, `date_to=2024-01-31`, no other filter. -/
def exFilters : Filters :=
  ⟨some "2024-01-01", some "2024-01-31", none, none, none, none⟩

/-- C4 witness: both boundary rows are listed for the inclusive January
range. -/
theorem list_cashflows_filter_exact_witness :
    exRowJan1 ∈ list_cashflows exDB4 exFilters ∧
    exRowJan31 ∈ list_cashflows exDB4 exFilters :=
  ⟨(list_cashflows_filter_exact exDB4 exFilters exRowJan1 (by decide)).mpr
      ⟨by decide,
        fun d hd => by rw [← Option.some.inj hd]; decide,
        fun d hd => by rw [← Option.some.inj hd]; decide,
        fun v hv => by simp [exFilters] at hv,
        fun v hv => by simp [exFilters] at hv,
        fun v hv => by simp [exFilters] at hv,
        fun v hv => by simp [exFilters] at hv⟩,
    (list_cashflows_filter_exact exDB4 exFilters exRowJan31 (by decide)).mpr
      ⟨by decide,
        fun d hd => by rw [← Option.some.inj hd]; decide,
        fun d hd => by rw [← Option.some.inj hd]; decide,
        fun v hv => by simp [exFilters] at hv,
        fun v hv => by simp [exFilters] at hv,
        fun v hv => by simp [exFilters] at hv,
        fun v hv => by simp [exFilters] at hv⟩⟩

/-! ### Exact rational semantics of amount parsing (C5, C6) -/

/-- The exact rational value of a parsed finite decimal. -/
def DecNum.value (d : DecNum) : ℚ := (d.coeff : ℚ) * (10 : ℚ) ^ d.exp

/-- Round-half-up to an integer: nearest integer, ties away from zero. -/
def roundHalfUp (q : ℚ) : ℤ := if q < 0 then -⌊-q + 1 / 2⌋ else ⌊q + 1 / 2⌋

theorem roundHalfUp_intCast (m : ℤ) : roundHalfUp ((m : ℚ)) = m := by
  unfold roundHalfUp
  by_cases h : ((m : ℚ)) < 0
  · rw [if_pos h]
    have h1 : -((m : ℚ)) + 1 / 2 = ((-m : ℤ) : ℚ) + 1 / 2 := by push_cast; ring
    rw [h1, Int.floor_int_add]
    norm_num
  · rw [if_neg h, Int.floor_int_add]
    norm_num

/-- Half-up rounding of `n / dv` (both natural, `dv` even and positive) is
the integer division `(n + dv / 2) / dv`. -/
theorem halfUpNat_eq_floor (n dv : ℕ) (hdv : 0 < dv) (heven : 2 ∣ dv) :
    (((n + dv / 2) / dv : ℕ) : ℤ) = ⌊(n : ℚ) / (dv : ℚ) + 1 / 2⌋ := by
  obtain ⟨h, rfl⟩ := heven
  have hh : 0 < h := by omega
  have hq : (n : ℚ) / ((2 * h : ℕ) : ℚ) + 1 / 2 =
      (((2 * n + 2 * h : ℕ) : ℤ) : ℚ) / ((2 * (2 * h) : ℕ) : ℚ) := by
    have hne : (h : ℚ) ≠ 0 := by
      exact_mod_cast hh.ne'
    push_cast
    field_simp
    ring
  rw [hq, Rat.floor_intCast_div_natCast, ← Int.natCast_div]
  have h1 : 2 * h / 2 = h := by omega
  have h2 : (2 * n + 2 * h) / (2 * (2 * h)) = (n + h) / (2 * h) := by
    rw [show 2 * n + 2 * h = 2 * (n + h) from by ring,
      Nat.mul_div_mul_left (n + h) (2 * h) (by omega)]
  rw [h1, h2]

theorem centsOfDec_eq (d : DecNum) :
    centsOfDec d = roundHalfUp (100 * d.value) := by
  unfold centsOfDec DecNum.value
  by_cases he : 0 ≤ d.exp + 2
  · rw [if_pos he]
    have hval : 100 * ((d.coeff : ℚ) * (10 : ℚ) ^ d.exp) =
        ((d.coeff * (10 : Int) ^ (d.exp + 2).toNat : ℤ) : ℚ) := by
      push_cast
      rw [← zpow_natCast (10 : ℚ) (d.exp + 2).toNat, Int.toNat_of_nonneg he,
        zpow_add₀ (by norm_num : (10 : ℚ) ≠ 0)]
      norm_num
      ring
    rw [hval, roundHalfUp_intCast]
  · rw [if_neg he]
    obtain ⟨k, hk⟩ : ∃ k, (-(d.exp + 2)).toNat = k := ⟨_, rfl⟩
    rw [hk]
    have hkpos : 1 ≤ k := by omega
    have he2 : d.exp = -(k : ℤ) - 2 := by omega
    have hq : 100 * ((d.coeff : ℚ) * (10 : ℚ) ^ d.exp) =
        (d.coeff : ℚ) / ((10 ^ k : ℕ) : ℚ) := by
      rw [he2, zpow_sub₀ (by norm_num : (10 : ℚ) ≠ 0), zpow_neg, zpow_natCast,
        show ((10 : ℚ)) ^ ((2 : ℤ)) = 100 from by norm_num]
      push_cast
      have h10 : (10 : ℚ) ^ k ≠ 0 := by positivity
      field_simp
      ring
    rw [hq]
    by_cases hc : d.coeff < 0
    · rw [if_pos hc]
      have hcoefneg : (d.coeff : ℚ) < 0 := by exact_mod_cast hc
      have hneg : (d.coeff : ℚ) / ((10 ^ k : ℕ) : ℚ) < 0 :=
        div_neg_of_neg_of_pos hcoefneg (by positivity)
      unfold roundHalfUp
      rw [if_pos hneg]
      have habs : -((d.coeff : ℚ) / ((10 ^ k : ℕ) : ℚ)) =
          ((d.coeff.natAbs : ℕ) : ℚ) / ((10 ^ k : ℕ) : ℚ) := by
        rw [Int.cast_natAbs, Int.cast_abs, abs_of_neg hcoefneg, neg_div]
      rw [habs]
      exact congrArg Neg.neg (halfUpNat_eq_floor d.coeff.natAbs (10 ^ k)
        (by positivity) (dvd_pow (by norm_num) (by omega)))
    · rw [if_neg hc]
      have hcoefnn : (0 : ℚ) ≤ (d.coeff : ℚ) := by exact_mod_cast not_lt.mp hc
      have hnn : 0 ≤ (d.coeff : ℚ) / ((10 ^ k : ℕ) : ℚ) :=
        div_nonneg hcoefnn (by positivity)
      unfold roundHalfUp
      rw [if_neg (not_lt.mpr hnn)]
      have hcn : ((d.coeff.natAbs : ℕ) : ℚ) = (d.coeff : ℚ) := by
        rw [Int.cast_natAbs, Int.cast_abs]
        exact abs_of_nonneg hcoefnn
      rw [← hcn]
      exact halfUpNat_eq_floor d.coeff.natAbs (10 ^ k) (by positivity)
        (dvd_pow (by norm_num) (by omega))

/-- C5: comma/dot decimal separators and thousands spaces are equivalent:
both spellings of 1234.50 parse to exactly 123450 minor units. -/
theorem parse_amount_reformat_invariant :
    parse_amount "1 234,50" = AmountOut.ok 123450 ∧
    parse_amount "1234.50" = AmountOut.ok 123450 := by decide

/-- C6: every amount string accepted by `parse_amount` is stored as exactly
the half-up rounding (to two decimal places, i.e. of 100 times the value) of
the exact rational value of its decimal literal — pure integer arithmetic,
no floating point. -/
theorem parse_amount_half_up_exact (s : String) (c : Int)
    (h : parse_amount s = AmountOut.ok c) :
    ∃ dn, pyDecimalOfChars (amountNormalize s.data) = DecParse.fin dn ∧
      c = roundHalfUp (100 * dn.value) := by
  unfold parse_amount parse_amount_chars at h
  by_cases hv : ((pyStripChars s.data).filter (fun c => c != ' ')) = []
  · rw [if_pos hv] at h
    exact absurd h (by simp)
  · rw [if_neg hv] at h
    cases hd : pyDecimalOfChars
        (((pyStripChars s.data).filter (fun c => c != ' ')).map
          (fun c => if c = ',' then '.' else c)) <;> rw [hd] at h
    · exact absurd h (by simp)
    · exact absurd h (by simp)
    · rename_i dn
      by_cases hnd : 28 < numDigits (centsOfDec dn).natAbs
      · simp only [if_pos hnd] at h
        exact absurd h (by simp)
      · simp only [if_neg hnd] at h
        refine ⟨dn, hd, ?_⟩
        have hc : centsOfDec dn = c := by
          have := h
          simp only [AmountOut.ok.injEq] at this
          exact this
        rw [← hc]
        exact centsOfDec_eq dn

/-- C6 witness: "1,005" is accepted as 101 minor units, the half-up rounding
of 100 · 1.005. -/
theorem parse_amount_half_up_exact_witness :
    ∃ dn, pyDecimalOfChars (amountNormalize ("1,005" : String).data) =
        DecParse.fin dn ∧
      (101 : ℤ) = roundHalfUp (100 * dn.value) :=
  parse_amount_half_up_exact "1,005" 101 (by decide)

end DDS
